import Mathlib

/-!
Verification of the cosmic-applet-kdeconnect protocol core against its
specification.  The Rust sources under the two protocol crates are embedded
shallowly: pure functions become Lean functions, the per-device pairing state
machine becomes a step function on an explicit state type, fallible code
returns Except/Option, and JSON values are an inductive type.  Components of
the repository whose implementation files are not available (the packet codec,
the pairing service, the plugin dispatcher, the wpctl audio backend) are
modelled from the specification text, as marked on each definition.
-/

namespace KdeConnect

/-- A JSON value, mirroring a serde_json value.  Numbers are modelled as
integers: every packet field the embedded plugins read is integral, and no
claim depends on float semantics. -/
inductive Json where
  | null
  | bool (b : Bool)
  | num (n : Int)
  | str (s : String)
  | arr (elems : List Json)
  | obj (fields : List (String × Json))

/-- Decimal digit character for a value below ten. -/
def decimalChar (d : Nat) : Char := Char.ofNat (48 + d)

/-- Fuel-driven digit accumulator: peels decimal digits least significant
first, prepending each to the accumulator.  The fuel only bounds recursion
depth; any fuel above the digit count gives the same result. -/
def natDigitsGo : Nat → Nat → List Char → List Char
  | 0, _, acc => acc
  | fuel + 1, n, acc =>
      if n < 10 then decimalChar n :: acc
      else natDigitsGo fuel (n / 10) (decimalChar (n % 10) :: acc)

/-- Decimal digit characters of a natural number, most significant first. -/
def natDigits (n : Nat) : List Char := natDigitsGo (n + 1) n []

/-- Decimal characters of an integer: a minus sign for negatives, then digits. -/
def intChars (n : Int) : List Char :=
  if n < 0 then '-' :: natDigits n.natAbs else natDigits n.natAbs

/-- JSON string-body escaping: a quote or backslash gets a backslash prefix,
every other character is emitted as is. -/
def escapeBody : List Char → List Char
  | [] => []
  | c :: t => if c = '"' ∨ c = '\\' then '\\' :: c :: escapeBody t else c :: escapeBody t

/-- A serialized JSON string: quote, escaped body, quote. -/
def strChars (s : String) : List Char := '"' :: (escapeBody s.data ++ ['"'])

mutual
/-- Modelled from the spec: compact serialization of a JSON value, the body
half of the newline-delimited packet codec of section 4.1 (packet.rs is not
among the available sources). -/
def serializeJson : Json → List Char
  | .null => 'n' :: 'u' :: 'l' :: 'l' :: []
  | .bool true => 't' :: 'r' :: 'u' :: 'e' :: []
  | .bool false => 'f' :: 'a' :: 'l' :: 's' :: 'e' :: []
  | .num n => intChars n
  | .str s => strChars s
  | .arr l => '[' :: serializeElems l
  | .obj l => '{' :: serializeFields l

/-- Array elements followed by the closing bracket. -/
def serializeElems : List Json → List Char
  | [] => [']']
  | [j] => serializeJson j ++ [']']
  | j :: t => serializeJson j ++ ',' :: serializeElems t

/-- Object members followed by the closing brace. -/
def serializeFields : List (String × Json) → List Char
  | [] => ['}']
  | [(k, v)] => strChars k ++ ':' :: (serializeJson v ++ ['}'])
  | (k, v) :: t => strChars k ++ ':' :: (serializeJson v ++ ',' :: serializeFields t)
end

/-- Accumulating decimal reader: consumes a maximal digit run. -/
def readDigits : List Char → Nat → Nat × List Char
  | [], acc => (acc, [])
  | c :: t, acc =>
      if c.isDigit then readDigits t (acc * 10 + (c.toNat - 48)) else (acc, c :: t)

/-- Reads a nonempty digit run from the front of the input. -/
def readNat (cs : List Char) : Option (Nat × List Char) :=
  match cs with
  | [] => none
  | c :: _ => if c.isDigit then some (readDigits cs 0) else none

/-- Reads a string body up to an unescaped closing quote.  Only the two
escapes the serializer emits are accepted. -/
def readStringBody : List Char → Option (List Char × List Char)
  | [] => none
  | c :: t =>
      if c = '"' then some ([], t)
      else if c = '\\' then
        match t with
        | [] => none
        | c2 :: t2 =>
            if c2 = '"' ∨ c2 = '\\' then
              match readStringBody t2 with
              | some (s, r) => some (c2 :: s, r)
              | none => none
            else none
      else
        match readStringBody t with
        | some (s, r) => some (c :: s, r)
        | none => none

/-- Checks that the input begins with the given characters and drops them. -/
def expectChars : List Char → List Char → Option (List Char)
  | [], cs => some cs
  | _ :: _, [] => none
  | e :: es, c :: cs => if c = e then expectChars es cs else none

mutual
/-- Modelled from the spec: fuel-indexed parser for a compact JSON value, the
decoding half of the section 4.1 packet codec.  Returns the value and the
unconsumed remainder, or none for malformed or incomplete input. -/
def parseJson : Nat → List Char → Option (Json × List Char)
  | 0, _ => none
  | _ + 1, [] => none
  | fuel + 1, c :: rest =>
      if c = 'n' then
        match expectChars ['u', 'l', 'l'] rest with
        | some r => some (.null, r)
        | none => none
      else if c = 't' then
        match expectChars ['r', 'u', 'e'] rest with
        | some r => some (.bool true, r)
        | none => none
      else if c = 'f' then
        match expectChars ['a', 'l', 's', 'e'] rest with
        | some r => some (.bool false, r)
        | none => none
      else if c = '"' then
        match readStringBody rest with
        | some (s, r) => some (.str (String.mk s), r)
        | none => none
      else if c = '[' then
        match parseElems fuel rest with
        | some (l, r) => some (.arr l, r)
        | none => none
      else if c = '{' then
        match parseFields fuel rest with
        | some (l, r) => some (.obj l, r)
        | none => none
      else if c = '-' then
        match readNat rest with
        | some (v, r) => some (.num (-(v : Int)), r)
        | none => none
      else if c.isDigit then
        match readNat (c :: rest) with
        | some (v, r) => some (.num (v : Int), r)
        | none => none
      else none

/-- Parses array elements up to and through the closing bracket. -/
def parseElems : Nat → List Char → Option (List Json × List Char)
  | 0, _ => none
  | _ + 1, [] => none
  | fuel + 1, c :: rest =>
      if c = ']' then some ([], rest)
      else
        match parseJson fuel (c :: rest) with
        | some (j, r) =>
            match r with
            | [] => none
            | c2 :: r2 =>
                if c2 = ',' then
                  match parseElems fuel r2 with
                  | some (l, r3) => some (j :: l, r3)
                  | none => none
                else if c2 = ']' then some ([j], r2)
                else none
        | none => none

/-- Parses object members up to and through the closing brace. -/
def parseFields : Nat → List Char → Option (List (String × Json) × List Char)
  | 0, _ => none
  | _ + 1, [] => none
  | fuel + 1, c :: rest =>
      if c = '}' then some ([], rest)
      else if c = '"' then
        match readStringBody rest with
        | some (k, r1) =>
            match r1 with
            | [] => none
            | c2 :: r2 =>
                if c2 = ':' then
                  match parseJson fuel r2 with
                  | some (v, r3) =>
                      match r3 with
                      | [] => none
                      | c3 :: r4 =>
                          if c3 = ',' then
                            match parseFields fuel r4 with
                            | some (l, r5) => some ((String.mk k, v) :: l, r5)
                            | none => none
                          else if c3 = '}' then some ([(String.mk k, v)], r4)
                          else none
                  | none => none
                else none
        | none => none
      else none
end

/-- A protocol packet: type tag, timestamp, structured body (section 3 of the
spec; packet.rs itself is not among the available sources, but its shape is
fixed by the spec and by the uses in the plugin sources). -/
structure Packet where
  packet_type : String
  id : Int
  body : Json

/-- Exact, case-sensitive packet type comparison, mirroring the uses of
Packet::is_type in systemvolume.rs (the spec fixes the comparison to be exact
and case-sensitive). -/
def Packet.is_type (p : Packet) (t : String) : Bool := p.packet_type == t

/-- A string with no control characters; serde_json would escape these, while
the modelled serializer emits body characters verbatim, so valid packets keep
them out (in particular no raw newline can corrupt the framing). -/
def strOk (s : String) : Bool := s.data.all (fun c => 32 ≤ c.toNat)

mutual
/-- Valid JSON value for framing purposes: every string is control-free. -/
def jsonValid : Json → Bool
  | .null => true
  | .bool _ => true
  | .num _ => true
  | .str s => strOk s
  | .arr l => elemsValid l
  | .obj l => fieldsValid l

/-- All elements valid. -/
def elemsValid : List Json → Bool
  | [] => true
  | j :: t => jsonValid j && elemsValid t

/-- All keys control-free and all values valid. -/
def fieldsValid : List (String × Json) → Bool
  | [] => true
  | (k, v) :: t => strOk k && jsonValid v && fieldsValid t
end

/-- A valid packet: control-free type string and valid body. -/
def Packet.valid (p : Packet) : Bool := strOk p.packet_type && jsonValid p.body

/-- The JSON object a packet serializes to. -/
def packetJson (p : Packet) : Json :=
  .obj [("id", .num p.id), ("type", .str p.packet_type), ("body", p.body)]

/-- First value bound to a key in a JSON object's field list. -/
def jGet (fields : List (String × Json)) (k : String) : Option Json :=
  match fields.find? (fun kv => kv.1 == k) with
  | some kv => some kv.2
  | none => none

/-- Reads a packet back out of a parsed JSON value. -/
def packetOfJson (j : Json) : Option Packet :=
  match j with
  | .obj fields =>
      match jGet fields "id", jGet fields "type", jGet fields "body" with
      | some (.num i), some (.str t), some b => some ⟨t, i, b⟩
      | _, _, _ => none
  | _ => none

/-- Modelled from the spec: encode(type, body) produces a self-delimited byte
frame, a newline-terminated JSON line (sections 4.1 and 6; packet.rs is not
among the available sources). -/
def encodePacket (p : Packet) : List Char :=
  serializeJson (packetJson p) ++ ['\n']

/-- Splits the stream at the first newline: the complete line and the rest,
or none when no full line has arrived yet. -/
def takeLine : List Char → Option (List Char × List Char)
  | [] => none
  | c :: t =>
      if c = '\n' then some ([], t)
      else
        match takeLine t with
        | some (l, r) => some (c :: l, r)
        | none => none

/-- Modelled from the spec: decode(stream) yields the next complete packet and
the unconsumed remainder, or none when the frame is incomplete or malformed
(section 4.1; packet.rs is not among the available sources). -/
def decodePacket (stream : List Char) : Option (Packet × List Char) :=
  match takeLine stream with
  | none => none
  | some (line, rest) =>
      match parseJson (line.length + 1) line with
      | some (j, []) =>
          match packetOfJson j with
          | some p => some (p, rest)
          | none => none
      | _ => none

/-! Decimal digit facts feeding the number half of the codec round trip. -/

theorem decimalChar_spec (d : Nat) (h : d < 10) :
    (decimalChar d).isDigit = true ∧ (decimalChar d).toNat = 48 + d := by
  interval_cases d <;> exact ⟨by decide, by decide⟩

/-- A digit character is none of the structural characters the parser
branches on first, and is not a newline. -/
theorem isDigit_ne {c : Char} (h : c.isDigit = true) :
    c ≠ 'n' ∧ c ≠ ']' ∧ c ≠ 't' ∧ c ≠ '}' ∧ c ≠ 'f' ∧ c ≠ ',' ∧ c ≠ '"' ∧
    c ≠ ':' ∧ c ≠ '[' ∧ c ≠ '\\' ∧ c ≠ '{' ∧ c ≠ '\n' ∧ c ≠ '-' := by
  repeat' apply And.intro
  all_goals (intro hc; subst hc; exact absurd h (by decide))

/-- The accumulator rides along outside the digits already produced. -/
theorem natDigitsGo_acc (fuel : Nat) : ∀ n acc,
    natDigitsGo fuel n acc = natDigitsGo fuel n [] ++ acc := by
  induction fuel with
  | zero => intro n acc; rfl
  | succ f ih =>
      intro n acc
      by_cases h : n < 10
      · simp [natDigitsGo, h]
      · simp only [natDigitsGo, if_neg h]
        rw [ih (n / 10), ih (n / 10) [decimalChar (n % 10)]]
        simp

/-- Any fuel above the value itself computes the same digit string. -/
theorem natDigitsGo_fuel : ∀ fuel n acc, n < fuel →
    natDigitsGo fuel n acc = natDigitsGo (n + 1) n acc := by
  intro fuel
  induction fuel using Nat.strong_induction_on with
  | _ fuel ih =>
    intro n acc hn
    match fuel, hn with
    | f + 1, hn =>
      by_cases h : n < 10
      · simp [natDigitsGo, h]
      · simp only [natDigitsGo, if_neg h]
        have hd : n / 10 < n := Nat.div_lt_self (by omega) (by omega)
        rw [ih f (by omega) (n / 10) _ (by omega),
            ih n (by omega) (n / 10) _ (by omega)]

/-- One-step unfolding of the digit accumulator at successor fuel. -/
theorem natDigitsGo_succ (f n : Nat) (acc : List Char) :
    natDigitsGo (f + 1) n acc = if n < 10 then decimalChar n :: acc
      else natDigitsGo f (n / 10) (decimalChar (n % 10) :: acc) := rfl

/-- The recursive equation of the digit serializer, fuel discharged. -/
theorem natDigits_eq (n : Nat) :
    natDigits n = if n < 10 then [decimalChar n]
      else natDigits (n / 10) ++ [decimalChar (n % 10)] := by
  by_cases h : n < 10
  · simp [natDigits, natDigitsGo, h]
  · have hd : n / 10 < n := Nat.div_lt_self (by omega) (by omega)
    rw [if_neg h]
    calc natDigits n = natDigitsGo (n + 1) n [] := rfl
      _ = natDigitsGo n (n / 10) [decimalChar (n % 10)] := by
            rw [natDigitsGo_succ, if_neg h]
      _ = natDigitsGo (n / 10 + 1) (n / 10) [decimalChar (n % 10)] :=
            natDigitsGo_fuel n (n / 10) _ (by omega)
      _ = natDigitsGo (n / 10 + 1) (n / 10) [] ++ [decimalChar (n % 10)] :=
            natDigitsGo_acc _ _ _
      _ = natDigits (n / 10) ++ [decimalChar (n % 10)] := rfl

theorem natDigits_all_digits (n : Nat) : ∀ c ∈ natDigits n, c.isDigit = true := by
  induction n using Nat.strong_induction_on with
  | _ n ih =>
    intro c hc
    rw [natDigits_eq] at hc
    by_cases h : n < 10
    · rw [if_pos h] at hc
      simp only [List.mem_singleton] at hc
      exact hc ▸ (decimalChar_spec n h).1
    · rw [if_neg h] at hc
      rcases List.mem_append.mp hc with h1 | h2
      · exact ih (n / 10) (Nat.div_lt_self (by omega) (by omega)) c h1
      · simp only [List.mem_singleton] at h2
        exact h2 ▸ (decimalChar_spec _ (Nat.mod_lt _ (by omega))).1

theorem natDigits_cons (n : Nat) :
    ∃ c t, natDigits n = c :: t ∧ c.isDigit = true := by
  match h : natDigits n with
  | [] =>
      rw [natDigits_eq] at h
      by_cases h10 : n < 10 <;> simp [h10] at h
  | c :: t =>
      refine ⟨c, t, rfl, natDigits_all_digits n c ?_⟩
      rw [h]; exact List.mem_cons_self c t

/-- Input whose first character, if any, is not a digit, so a maximal digit
run ends right before it. -/
def notDigitStart : List Char → Prop
  | [] => True
  | c :: _ => c.isDigit = false

theorem readDigits_stop {rest : List Char} (h : notDigitStart rest) (acc : Nat) :
    readDigits rest acc = (acc, rest) := by
  match rest with
  | [] => rfl
  | c :: t => simp only [readDigits, notDigitStart] at h ⊢; rw [if_neg (by simp [h])]

/-- Reading the serialized digits of a number folds the whole value into the
accumulator and continues after them. -/
theorem readDigits_natDigits (n : Nat) : ∀ acc rest,
    readDigits (natDigits n ++ rest) acc
      = readDigits rest (acc * 10 ^ (natDigits n).length + n) := by
  induction n using Nat.strong_induction_on with
  | _ n ih =>
    intro acc rest
    rw [natDigits_eq]
    by_cases h : n < 10
    · rw [if_pos h]
      obtain ⟨hdig, hval⟩ := decimalChar_spec n h
      simp [readDigits, hdig, hval]
    · rw [if_neg h]
      have hd : n / 10 < n := Nat.div_lt_self (by omega) (by omega)
      obtain ⟨hdig, hval⟩ := decimalChar_spec (n % 10) (Nat.mod_lt _ (by omega))
      rw [List.append_assoc, List.cons_append, List.nil_append,
          ih (n / 10) hd acc (decimalChar (n % 10) :: rest)]
      simp only [readDigits, hdig, if_pos, hval]
      congr 1
      have h48 : 48 + n % 10 - 48 = n % 10 := by omega
      rw [h48]
      simp only [List.length_append, List.length_singleton, pow_succ]
      have hflip : (acc * 10 ^ (natDigits (n / 10)).length + n / 10) * 10
          = acc * (10 ^ (natDigits (n / 10)).length * 10) + n / 10 * 10 := by ring
      rw [hflip]
      omega

/-- The digit reader recovers a serialized natural number exactly, leaving a
non-digit remainder alone. -/
theorem readNat_natDigits (n : Nat) {rest : List Char} (h : notDigitStart rest) :
    readNat (natDigits n ++ rest) = some (n, rest) := by
  obtain ⟨c, t, hct, hdig⟩ := natDigits_cons n
  rw [hct, List.cons_append]
  simp only [readNat, hdig, if_pos]
  rw [← List.cons_append, ← hct, readDigits_natDigits, readDigits_stop h]
  simp

theorem readStringBody_quote (t : List Char) : readStringBody ('"' :: t) = some ([], t) := by
  rw [readStringBody.eq_def]
  simp

theorem readStringBody_esc (c : Char) (t : List Char) (h : c = '"' ∨ c = '\\') :
    readStringBody ('\\' :: c :: t)
      = match readStringBody t with
        | some (s, r) => some (c :: s, r)
        | none => none := by
  rw [readStringBody.eq_def]
  simp only [if_pos h, if_neg (show ('\\' : Char) ≠ '"' by decide), reduceIte]

theorem readStringBody_other (c : Char) (t : List Char) (h1 : c ≠ '"') (h2 : c ≠ '\\') :
    readStringBody (c :: t)
      = match readStringBody t with
        | some (s, r) => some (c :: s, r)
        | none => none := by
  rw [readStringBody.eq_def]
  simp only [if_neg h1, if_neg h2]

/-- The string-body reader undoes the serializer's escaping and stops at the
closing quote. -/
theorem readStringBody_escape : ∀ (s rest : List Char),
    readStringBody (escapeBody s ++ '"' :: rest) = some (s, rest)
  | [], rest => by
      simp only [escapeBody, List.nil_append]
      exact readStringBody_quote rest
  | c :: t, rest => by
      by_cases h : c = '"' ∨ c = '\\'
      · simp only [escapeBody, if_pos h, List.cons_append]
        rw [readStringBody_esc c _ h, readStringBody_escape t rest]
      · simp only [escapeBody, if_neg h, List.cons_append]
        push_neg at h
        rw [readStringBody_other c _ h.1 h.2, readStringBody_escape t rest]

/-- Every serialized value is nonempty and starts with a character other than
a closing bracket, so the element parser's bracket test cannot fire on it. -/
theorem serializeJson_head (j : Json) :
    ∃ c t, serializeJson j = c :: t ∧ c ≠ ']' := by
  cases j with
  | null => exact ⟨'n', _, rfl, by decide⟩
  | bool b => cases b with
      | true => exact ⟨'t', _, rfl, by decide⟩
      | false => exact ⟨'f', _, rfl, by decide⟩
  | str s => exact ⟨'"', _, rfl, by decide⟩
  | arr l => exact ⟨'[', _, rfl, by decide⟩
  | obj l => exact ⟨'{', _, rfl, by decide⟩
  | num n =>
      by_cases hn : n < 0
      · refine ⟨'-', natDigits n.natAbs, ?_, by decide⟩
        simp [serializeJson, intChars, hn]
      · obtain ⟨c, t, hct, hdig⟩ := natDigits_cons n.natAbs
        refine ⟨c, t, ?_, (isDigit_ne hdig).2.1⟩
        simp [serializeJson, intChars, hn, hct]

theorem string_mk_data (s : String) : String.mk s.data = s := by cases s; rfl

theorem notDigitStart_cons (c : Char) (r : List Char) (h : c.isDigit = false) :
    notDigitStart (c :: r) := h

/-! One-step reductions of the parser at each kind of leading character. -/

theorem parseJson_null (f : Nat) (r : List Char) :
    parseJson (f + 1) ('n' :: 'u' :: 'l' :: 'l' :: r) = some (.null, r) := rfl

theorem parseJson_true (f : Nat) (r : List Char) :
    parseJson (f + 1) ('t' :: 'r' :: 'u' :: 'e' :: r) = some (.bool true, r) := rfl

theorem parseJson_false (f : Nat) (r : List Char) :
    parseJson (f + 1) ('f' :: 'a' :: 'l' :: 's' :: 'e' :: r) = some (.bool false, r) := rfl

theorem parseJson_quote (f : Nat) (r : List Char) :
    parseJson (f + 1) ('"' :: r)
      = match readStringBody r with
        | some (s, r2) => some (.str (String.mk s), r2)
        | none => none := rfl

theorem parseJson_lbrack (f : Nat) (r : List Char) :
    parseJson (f + 1) ('[' :: r)
      = match parseElems f r with
        | some (l, r2) => some (.arr l, r2)
        | none => none := rfl

theorem parseJson_lbrace (f : Nat) (r : List Char) :
    parseJson (f + 1) ('{' :: r)
      = match parseFields f r with
        | some (l, r2) => some (.obj l, r2)
        | none => none := rfl

theorem parseJson_minus (f : Nat) (r : List Char) :
    parseJson (f + 1) ('-' :: r)
      = match readNat r with
        | some (v, r2) => some (.num (-(v : Int)), r2)
        | none => none := rfl

theorem parseJson_digit (f : Nat) (c : Char) (r : List Char) (h : c.isDigit = true) :
    parseJson (f + 1) (c :: r)
      = match readNat (c :: r) with
        | some (v, r2) => some (.num (v : Int), r2)
        | none => none := by
  obtain ⟨h1, _, h3, _, h5, _, h7, _, h9, _, h11, _, h13⟩ := isDigit_ne h
  rw [parseJson.eq_def]
  simp only [if_neg h1, if_neg h3, if_neg h5, if_neg h7, if_neg h9, if_neg h11, if_neg h13, h,
    if_true]

theorem parseElems_rbrack (f : Nat) (r : List Char) :
    parseElems (f + 1) (']' :: r) = some ([], r) := rfl

theorem parseElems_other (f : Nat) (c : Char) (r : List Char) (h : c ≠ ']') :
    parseElems (f + 1) (c :: r)
      = match parseJson f (c :: r) with
        | some (j, r2) =>
            (match r2 with
             | [] => none
             | c2 :: r3 =>
                 if c2 = ',' then
                   match parseElems f r3 with
                   | some (l, r4) => some (j :: l, r4)
                   | none => none
                 else if c2 = ']' then some ([j], r3)
                 else none)
        | none => none := by
  rw [parseElems.eq_def]
  simp only [if_neg h]

theorem parseFields_rbrace (f : Nat) (r : List Char) :
    parseFields (f + 1) ('}' :: r) = some ([], r) := rfl

theorem parseFields_quote (f : Nat) (r : List Char) :
    parseFields (f + 1) ('"' :: r)
      = match readStringBody r with
        | some (k, r1) =>
            (match r1 with
             | [] => none
             | c2 :: r2 =>
                 if c2 = ':' then
                   match parseJson f r2 with
                   | some (v, r3) =>
                       (match r3 with
                        | [] => none
                        | c3 :: r4 =>
                            if c3 = ',' then
                              match parseFields f r4 with
                              | some (l, r5) => some ((String.mk k, v) :: l, r5)
                              | none => none
                            else if c3 = '}' then some ([(String.mk k, v)], r4)
                            else none)
                   | none => none
                 else none)
        | none => none := rfl

/-! The codec round trip, by mutual structural induction on the value. -/

mutual
theorem rtVal : ∀ (j : Json) (fuel : Nat) (rest : List Char),
    (serializeJson j).length < fuel → notDigitStart rest →
    parseJson fuel (serializeJson j ++ rest) = some (j, rest)
  | .null, fuel, rest, hf, _ => by
      cases fuel with
      | zero => exact absurd hf (Nat.not_lt_zero _)
      | succ f => exact parseJson_null f rest
  | .bool true, fuel, rest, hf, _ => by
      cases fuel with
      | zero => exact absurd hf (Nat.not_lt_zero _)
      | succ f => exact parseJson_true f rest
  | .bool false, fuel, rest, hf, _ => by
      cases fuel with
      | zero => exact absurd hf (Nat.not_lt_zero _)
      | succ f => exact parseJson_false f rest
  | .num n, fuel, rest, hf, hr => by
      cases fuel with
      | zero => exact absurd hf (Nat.not_lt_zero _)
      | succ f =>
          by_cases hn : n < 0
          · have hser : serializeJson (.num n) = '-' :: natDigits n.natAbs := by
              simp [serializeJson, intChars, hn]
            rw [hser, List.cons_append, parseJson_minus, readNat_natDigits n.natAbs hr]
            have hval : -(n.natAbs : Int) = n := by omega
            simp only [hval]
          · obtain ⟨c, t, hct, hdig⟩ := natDigits_cons n.natAbs
            have hser : serializeJson (.num n) = natDigits n.natAbs := by
              simp [serializeJson, intChars, hn]
            rw [hser, hct, List.cons_append, parseJson_digit f c _ hdig, ← List.cons_append,
              ← hct, readNat_natDigits n.natAbs hr]
            have hval : ((n.natAbs : Int)) = n := by omega
            simp only [hval]
  | .str s, fuel, rest, hf, _ => by
      cases fuel with
      | zero => exact absurd hf (Nat.not_lt_zero _)
      | succ f =>
          have hser : serializeJson (.str s) ++ rest
              = '"' :: (escapeBody s.data ++ '"' :: rest) := by
            simp [serializeJson, strChars]
          rw [hser, parseJson_quote, readStringBody_escape s.data rest]
  | .arr l, fuel, rest, hf, _ => by
      cases fuel with
      | zero => exact absurd hf (Nat.not_lt_zero _)
      | succ f =>
          have hser : serializeJson (.arr l) ++ rest = '[' :: (serializeElems l ++ rest) := by
            simp [serializeJson]
          have hlen : (serializeElems l).length < f := by
            simp only [serializeJson, List.length_cons] at hf; omega
          rw [hser, parseJson_lbrack, rtElems l f rest hlen]
  | .obj l, fuel, rest, hf, _ => by
      cases fuel with
      | zero => exact absurd hf (Nat.not_lt_zero _)
      | succ f =>
          have hser : serializeJson (.obj l) ++ rest = '{' :: (serializeFields l ++ rest) := by
            simp [serializeJson]
          have hlen : (serializeFields l).length < f := by
            simp only [serializeJson, List.length_cons] at hf; omega
          rw [hser, parseJson_lbrace, rtFields l f rest hlen]

theorem rtElems : ∀ (l : List Json) (fuel : Nat) (rest : List Char),
    (serializeElems l).length < fuel →
    parseElems fuel (serializeElems l ++ rest) = some (l, rest)
  | [], fuel, rest, hf => by
      cases fuel with
      | zero => exact absurd hf (Nat.not_lt_zero _)
      | succ f => exact parseElems_rbrack f rest
  | [j], fuel, rest, hf => by
      cases fuel with
      | zero => exact absurd hf (Nat.not_lt_zero _)
      | succ f =>
          obtain ⟨c, t0, hct, hc⟩ := serializeJson_head j
          have hlen : (serializeJson j).length < f := by
            simp only [serializeElems, List.length_append, List.length_singleton] at hf; omega
          have hv := rtVal j f (']' :: rest) hlen (notDigitStart_cons _ _ (by decide))
          rw [hct, List.cons_append] at hv
          have hshape : serializeElems [j] ++ rest = c :: (t0 ++ ']' :: rest) := by
            simp [serializeElems, hct]
          rw [hshape, parseElems_other f c _ hc, hv]
          simp
  | j :: x :: xs, fuel, rest, hf => by
      cases fuel with
      | zero => exact absurd hf (Nat.not_lt_zero _)
      | succ f =>
          obtain ⟨c, t0, hct, hc⟩ := serializeJson_head j
          have hflen : (serializeJson j).length + 1 + (serializeElems (x :: xs)).length
              < f + 1 := by
            simp only [serializeElems, List.length_append, List.length_cons] at hf ⊢; omega
          have hv := rtVal j f (',' :: (serializeElems (x :: xs) ++ rest)) (by omega)
            (notDigitStart_cons _ _ (by decide))
          rw [hct, List.cons_append] at hv
          have htail := rtElems (x :: xs) f rest (by omega)
          have hshape : serializeElems (j :: x :: xs) ++ rest
              = c :: (t0 ++ ',' :: (serializeElems (x :: xs) ++ rest)) := by
            simp [serializeElems, hct]
          rw [hshape, parseElems_other f c _ hc, hv]
          simp only [htail, reduceIte]

theorem rtFields : ∀ (l : List (String × Json)) (fuel : Nat) (rest : List Char),
    (serializeFields l).length < fuel →
    parseFields fuel (serializeFields l ++ rest) = some (l, rest)
  | [], fuel, rest, hf => by
      cases fuel with
      | zero => exact absurd hf (Nat.not_lt_zero _)
      | succ f => exact parseFields_rbrace f rest
  | [(k, v)], fuel, rest, hf => by
      cases fuel with
      | zero => exact absurd hf (Nat.not_lt_zero _)
      | succ f =>
          have hlen : (serializeJson v).length < f := by
            simp only [serializeFields, strChars, List.length_append, List.length_cons] at hf
            omega
          have hv := rtVal v f ('}' :: rest) hlen (notDigitStart_cons _ _ (by decide))
          have hshape : serializeFields [(k, v)] ++ rest
              = '"' :: (escapeBody k.data ++ '"' :: (':' :: (serializeJson v ++ '}' :: rest))) := by
            simp [serializeFields, strChars]
          rw [hshape, parseFields_quote, readStringBody_escape k.data _]
          simp only [hv, string_mk_data, reduceIte]
          simp
  | (k, v) :: kv2 :: ms, fuel, rest, hf => by
      cases fuel with
      | zero => exact absurd hf (Nat.not_lt_zero _)
      | succ f =>
          have hflen : (serializeJson v).length + 1 + (serializeFields (kv2 :: ms)).length
              < f + 1 := by
            simp only [serializeFields, strChars, List.length_append, List.length_cons] at hf ⊢
            omega
          have hv := rtVal v f (',' :: (serializeFields (kv2 :: ms) ++ rest)) (by omega)
            (notDigitStart_cons _ _ (by decide))
          have htail := rtFields (kv2 :: ms) f rest (by omega)
          have hshape : serializeFields ((k, v) :: kv2 :: ms) ++ rest
              = '"' :: (escapeBody k.data
                  ++ '"' :: (':' :: (serializeJson v
                      ++ ',' :: (serializeFields (kv2 :: ms) ++ rest)))) := by
            simp [serializeFields, strChars]
          rw [hshape, parseFields_quote, readStringBody_escape k.data _]
          simp only [hv, string_mk_data, htail, reduceIte]
end

/-! Framing: a serialized valid value contains no newline, so the newline
terminator added by the encoder is the first newline of the frame. -/

theorem escapeBody_no_newline : ∀ s : List Char,
    (∀ c ∈ s, 32 ≤ c.toNat) → '\n' ∉ escapeBody s
  | [], _ => by simp [escapeBody]
  | c :: t, h => by
      have hc : ('\n' : Char) ≠ c := by
        intro he
        have := h c (List.mem_cons_self c t)
        rw [← he] at this
        exact absurd this (by decide)
      have ht := escapeBody_no_newline t (fun x hx => h x (List.mem_cons_of_mem c hx))
      by_cases hb : c = '"' ∨ c = '\\'
      · simp only [escapeBody, if_pos hb, List.mem_cons]
        push_neg
        exact ⟨by decide, hc, ht⟩
      · simp only [escapeBody, if_neg hb, List.mem_cons]
        push_neg
        exact ⟨hc, ht⟩

theorem strChars_no_newline (s : String) (h : strOk s = true) : '\n' ∉ strChars s := by
  simp only [strChars, List.mem_cons, List.mem_append, List.mem_singleton]
  push_neg
  refine ⟨by decide, ?_, by decide⟩
  exact escapeBody_no_newline s.data (by simpa [strOk, List.all_eq_true] using h)

theorem natDigits_no_newline (n : Nat) : '\n' ∉ natDigits n := by
  intro hmem
  have := natDigits_all_digits n _ hmem
  exact absurd this (by decide)

theorem intChars_no_newline (n : Int) : '\n' ∉ intChars n := by
  by_cases h : n < 0
  · simp only [intChars, if_pos h, List.mem_cons]
    push_neg
    exact ⟨by decide, natDigits_no_newline _⟩
  · simp only [intChars, if_neg h]
    exact natDigits_no_newline _

mutual
theorem serializeJson_no_newline : ∀ j : Json, jsonValid j = true →
    '\n' ∉ serializeJson j
  | .null, _ => by simp [serializeJson]
  | .bool true, _ => by simp [serializeJson]
  | .bool false, _ => by simp [serializeJson]
  | .num n, _ => intChars_no_newline n
  | .str s, h => strChars_no_newline s (by simpa [jsonValid] using h)
  | .arr l, h => by
      simp only [serializeJson, List.mem_cons]
      push_neg
      exact ⟨by decide, serializeElems_no_newline l (by simpa [jsonValid] using h)⟩
  | .obj l, h => by
      simp only [serializeJson, List.mem_cons]
      push_neg
      exact ⟨by decide, serializeFields_no_newline l (by simpa [jsonValid] using h)⟩

theorem serializeElems_no_newline : ∀ l : List Json, elemsValid l = true →
    '\n' ∉ serializeElems l
  | [], _ => by simp [serializeElems]
  | [j], h => by
      have hj : jsonValid j = true := by simpa [elemsValid] using h
      simp only [serializeElems, List.mem_append, List.mem_singleton]
      push_neg
      exact ⟨serializeJson_no_newline j hj, by decide⟩
  | j :: x :: xs, h => by
      have hj : jsonValid j = true := by
        simp only [elemsValid, Bool.and_eq_true] at h
        exact h.1
      have ht : elemsValid (x :: xs) = true := by
        simp only [elemsValid, Bool.and_eq_true] at h
        simp [elemsValid, h.2.1, h.2.2]
      simp only [serializeElems, List.mem_append, List.mem_cons]
      push_neg
      exact ⟨serializeJson_no_newline j hj, by decide,
        serializeElems_no_newline (x :: xs) ht⟩

theorem serializeFields_no_newline : ∀ l : List (String × Json), fieldsValid l = true →
    '\n' ∉ serializeFields l
  | [], _ => by simp [serializeFields]
  | [(k, v)], h => by
      have hk : strOk k = true := by
        simp only [fieldsValid, Bool.and_eq_true] at h
        exact h.1.1
      have hv : jsonValid v = true := by
        simp only [fieldsValid, Bool.and_eq_true] at h
        exact h.1.2
      simp only [serializeFields, List.mem_append, List.mem_cons, List.mem_singleton]
      push_neg
      exact ⟨strChars_no_newline k hk, by decide,
        serializeJson_no_newline v hv, by decide⟩
  | (k, v) :: kv2 :: ms, h => by
      have hk : strOk k = true := by
        simp only [fieldsValid, Bool.and_eq_true] at h
        exact h.1.1
      have hv : jsonValid v = true := by
        simp only [fieldsValid, Bool.and_eq_true] at h
        exact h.1.2
      have ht : fieldsValid (kv2 :: ms) = true := by
        simp only [fieldsValid, Bool.and_eq_true] at h ⊢
        exact h.2
      simp only [serializeFields, List.mem_append, List.mem_cons]
      push_neg
      exact ⟨strChars_no_newline k hk, by decide,
        serializeJson_no_newline v hv, by decide,
        serializeFields_no_newline (kv2 :: ms) ht⟩
end

theorem takeLine_append : ∀ l : List Char, '\n' ∉ l → ∀ r : List Char,
    takeLine (l ++ '\n' :: r) = some (l, r)
  | [], _ => by
      intro r
      simp [takeLine]
  | c :: t, h => by
      intro r
      have hc : c ≠ '\n' := fun he => h (he ▸ List.mem_cons_self c t)
      have ht := takeLine_append t (fun hm => h (List.mem_cons_of_mem c hm)) r
      rw [List.cons_append, takeLine.eq_def]
      simp only [if_neg hc, ht]

theorem packetJson_valid (p : Packet) (h : p.valid = true) :
    jsonValid (packetJson p) = true := by
  simp only [Packet.valid, Bool.and_eq_true] at h
  have h1 : ∀ c ∈ p.packet_type.data, 32 ≤ c.toNat := by
    simpa [strOk, List.all_eq_true] using h.1
  simp [packetJson, jsonValid, fieldsValid, strOk, List.all_eq_true, h.2]
  exact h1

theorem packetOfJson_packetJson (p : Packet) : packetOfJson (packetJson p) = some p := rfl

/-- The heart of the codec claim: a valid packet's frame decodes back to the
packet, leaving exactly the bytes after the frame. -/
theorem decode_encode (p : Packet) (extra : List Char) (hv : p.valid = true) :
    decodePacket (encodePacket p ++ extra) = some (p, extra) := by
  have hnl : '\n' ∉ serializeJson (packetJson p) :=
    serializeJson_no_newline _ (packetJson_valid p hv)
  have henc : encodePacket p ++ extra = serializeJson (packetJson p) ++ '\n' :: extra := by
    simp [encodePacket]
  have hparse := rtVal (packetJson p) ((serializeJson (packetJson p)).length + 1) []
    (by omega) trivial
  rw [List.append_nil] at hparse
  rw [henc]
  unfold decodePacket
  rw [takeLine_append _ hnl extra]
  simp only [hparse, packetOfJson_packetJson]

/-! ## Protocol errors and the plugin request bodies

The error type is reconstructed from its uses in the available sources
(remoteinput.rs and systemvolume.rs construct InvalidPacket and Transport
variants); error.rs itself is not among the available sources. -/

inductive ProtocolError where
  | InvalidPacket (msg : String)
  | Transport (msg : String)
deriving DecidableEq

/-- serde-style extraction of an optional string field: an absent key or an
explicit null is None, a string is Some, anything else is a type error. -/
def optStringField (fields : List (String × Json)) (k : String) :
    Except String (Option String) :=
  match jGet fields k with
  | none => .ok none
  | some .null => .ok none
  | some (.str s) => .ok (some s)
  | some _ => .error ("invalid type for field " ++ k)

/-- serde-style extraction of an optional boolean field. -/
def optBoolField (fields : List (String × Json)) (k : String) :
    Except String (Option Bool) :=
  match jGet fields k with
  | none => .ok none
  | some .null => .ok none
  | some (.bool b) => .ok (some b)
  | some _ => .error ("invalid type for field " ++ k)

/-- serde-style extraction of an optional i32 field: a number out of the i32
range overflows and is a deserialization error, as in serde_json. -/
def optI32Field (fields : List (String × Json)) (k : String) :
    Except String (Option Int) :=
  match jGet fields k with
  | none => .ok none
  | some .null => .ok none
  | some (.num n) =>
      if -2147483648 ≤ n ∧ n ≤ 2147483647 then .ok (some n)
      else .error ("out of range field " ++ k)
  | some _ => .error ("invalid type for field " ++ k)

/-- serde-style extraction of an optional f64 field: any JSON number is
accepted (numbers are modelled as integers). -/
def optNumField (fields : List (String × Json)) (k : String) :
    Except String (Option Int) :=
  match jGet fields k with
  | none => .ok none
  | some .null => .ok none
  | some (.num n) => .ok (some n)
  | some _ => .error ("invalid type for field " ++ k)

/-- The requestSinks field carries a serde default: an absent key becomes
false, a present value must be a boolean. -/
def reqSinksField (fields : List (String × Json)) : Except String Bool :=
  match jGet fields "requestSinks" with
  | none => .ok false
  | some (.bool b) => .ok b
  | some _ => .error "invalid type for field requestSinks"

/-- The remote input request body of remoteinput.rs (all fields optional;
dx and dy are f64 in the source, modelled as integers). -/
structure RemoteInputRequest where
  key : Option String
  special_key : Option Int
  alt : Option Bool
  ctrl : Option Bool
  shift : Option Bool
  super_key : Option Bool
  singleclick : Option Bool
  doubleclick : Option Bool
  middleclick : Option Bool
  rightclick : Option Bool
  singlehold : Option Bool
  singlerelease : Option Bool
  dx : Option Int
  dy : Option Int
  scroll : Option Bool
  send_ack : Option Bool
deriving DecidableEq

/-- serde_json deserialization of a RemoteInputRequest: the body must be an
object, recognized fields must be well typed, unknown fields are ignored. -/
def remoteInputRequestFromJson (j : Json) : Except String RemoteInputRequest :=
  match j with
  | .obj fields => do
      let key ← optStringField fields "key"
      let specialKey ← optI32Field fields "specialKey"
      let alt ← optBoolField fields "alt"
      let ctrl ← optBoolField fields "ctrl"
      let shift ← optBoolField fields "shift"
      let superKey ← optBoolField fields "super"
      let singleclick ← optBoolField fields "singleclick"
      let doubleclick ← optBoolField fields "doubleclick"
      let middleclick ← optBoolField fields "middleclick"
      let rightclick ← optBoolField fields "rightclick"
      let singlehold ← optBoolField fields "singlehold"
      let singlerelease ← optBoolField fields "singlerelease"
      let dx ← optNumField fields "dx"
      let dy ← optNumField fields "dy"
      let scroll ← optBoolField fields "scroll"
      let sendAck ← optBoolField fields "sendAck"
      .ok ⟨key, specialKey, alt, ctrl, shift, superKey, singleclick, doubleclick,
        middleclick, rightclick, singlehold, singlerelease, dx, dy, scroll, sendAck⟩
  | _ => .error "invalid type: expected a map"

/-- The system volume request body of systemvolume.rs. -/
structure SystemVolumeRequest where
  name : Option String
  volume : Option Int
  muted : Option Bool
  enabled : Option Bool
  request_sinks : Bool
deriving DecidableEq

/-- serde_json deserialization of a SystemVolumeRequest. -/
def systemVolumeRequestFromJson (j : Json) : Except String SystemVolumeRequest :=
  match j with
  | .obj fields => do
      let name ← optStringField fields "name"
      let volume ← optI32Field fields "volume"
      let muted ← optBoolField fields "muted"
      let enabled ← optBoolField fields "enabled"
      let requestSinks ← reqSinksField fields
      .ok ⟨name, volume, muted, enabled, requestSinks⟩
  | _ => .error "invalid type: expected a map"

/-! ## The two plugins' packet handlers -/

def PACKET_TYPE_MOUSEPAD_REQUEST : String := "kdeconnect.mousepad.request"

def PACKET_TYPE_MOUSEPAD_KEYBOARDSTATE : String := "kdeconnect.mousepad.keyboardstate"

def PACKET_TYPE_SYSTEMVOLUME_REQUEST : String := "cconnect.systemvolume.request"

def PACKET_TYPE_SYSTEMVOLUME : String := "cconnect.systemvolume"

/-- RemoteInputPlugin::handle_request of remoteinput.rs: parse the body,
mapping a deserialization failure to InvalidPacket; the input actions are
debug logging stubs, so a parsed request is handled with Ok. -/
def RemoteInputPlugin.handle_request (packet : Packet) : Except ProtocolError Unit :=
  match remoteInputRequestFromJson packet.body with
  | .ok _ => .ok ()
  | .error e => .error (.InvalidPacket ("Failed to parse request: " ++ e))

/-- RemoteInputPlugin::handle_packet of remoteinput.rs: an exact match on the
packet type string selects handle_request; any other type logs and returns Ok. -/
def RemoteInputPlugin.handle_packet (packet : Packet) : Except ProtocolError Unit :=
  if packet.packet_type = PACKET_TYPE_MOUSEPAD_REQUEST then
    RemoteInputPlugin.handle_request packet
  else .ok ()

/-- The wpctl-backed audio environment systemvolume.rs queries, abstracted as
the answers its queries would return (the audio backend shells out to wpctl,
so it is external state to the handler). -/
structure AudioEnv where
  findSinkByName : String → Option Nat
  defaultSinkId : Option Nat

/-- Observable side effects of a volume request. -/
inductive VolumeEffect where
  | sentSinkList
  | setVolume (sinkId : Nat) (volume : Int)
  | setMute (sinkId : Nat) (muted : Bool)
deriving DecidableEq

/-- Rust str::parse::<u32>, on the digits-only strings the protocol uses. -/
def parseU32 (s : String) : Option Nat :=
  match s.toNat? with
  | some n => if n < 4294967296 then some n else none
  | none => none

/-- Lookup in the plugin's sink cache (a HashMap from name to id). -/
def sinkCacheLookup (cache : List (String × Nat)) (name : String) : Option Nat :=
  match cache.find? (fun kv => kv.1 == name) with
  | some kv => some kv.2
  | none => none

/-- SystemVolumePlugin::handle_volume_request of systemvolume.rs: parse the
body (InvalidPacket on failure); a requestSinks body answers with the sink
list at once; otherwise resolve the sink (id-parse, then cache, then backend
search, or the default sink), return Ok with no effects when none is found,
and otherwise apply the requested volume and mute changes and send the
updated sink list. -/
def SystemVolumePlugin.handle_volume_request (env : AudioEnv)
    (cache : List (String × Nat)) (packet : Packet) :
    Except ProtocolError (List VolumeEffect) :=
  match systemVolumeRequestFromJson packet.body with
  | .error e => .error (.InvalidPacket ("Failed to parse volume request: " ++ e))
  | .ok request =>
      if request.request_sinks then .ok [.sentSinkList]
      else
        let sinkId : Option Nat :=
          match request.name with
          | some name =>
              match parseU32 name with
              | some id => some id
              | none =>
                  match sinkCacheLookup cache name with
                  | some id => some id
                  | none => env.findSinkByName name
          | none => env.defaultSinkId
        match sinkId with
        | none => .ok []
        | some id =>
            let volEff := match request.volume with
              | some v => [VolumeEffect.setVolume id v]
              | none => ([] : List VolumeEffect)
            let muteEff := match request.muted with
              | some m => [VolumeEffect.setMute id m]
              | none => ([] : List VolumeEffect)
            .ok (volEff ++ muteEff ++ [.sentSinkList])

/-- SystemVolumePlugin::handle_packet of systemvolume.rs: either of the two
exact type strings (the cconnect one and the historical kdeconnect prefix)
selects handle_volume_request; any other type is Ok with no effects. -/
def SystemVolumePlugin.handle_packet (env : AudioEnv) (cache : List (String × Nat))
    (packet : Packet) : Except ProtocolError (List VolumeEffect) :=
  if packet.is_type PACKET_TYPE_SYSTEMVOLUME_REQUEST
      || packet.is_type "kdeconnect.systemvolume.request" then
    SystemVolumePlugin.handle_volume_request env cache packet
  else .ok []

/-! ## Protocol version (lib.rs) -/

/-- The crate-level constant of kdeconnect-protocol/src/lib.rs, declared as 8
("Updated to version 8 to match latest KDE Connect Android app"). -/
def PROTOCOL_VERSION : Nat := 8

/-- The value the crate's own unit test test_protocol_version asserts the
constant to equal (lib.rs line 42: PROTOCOL_VERSION is compared with 7). -/
def testProtocolVersionExpected : Nat := 7

/-! ## Capability-based plugin dispatch (section 4.6) -/

/-- A registered plugin as the dispatcher sees it: a name and its declared
incoming capability strings. -/
structure PluginEntry where
  name : String
  incoming : List String
deriving DecidableEq

/-- Whether the dispatcher delivered the packet or dropped it for lack of a
handler (a debug-level notice, never an error). -/
inductive DispatchOutcome where
  | delivered
  | droppedNoHandler
deriving DecidableEq

/-- Modelled from the spec: fan-out dispatch (section 4.6; plugins/mod.rs is
not among the available sources).  An inbound packet goes to every registered
plugin whose declared incoming capabilities contain the packet's type string;
when no plugin claims the type the packet is dropped without an error. -/
def dispatchPacket (plugins : List PluginEntry) (p : Packet) :
    List PluginEntry × DispatchOutcome :=
  let targets := plugins.filter (fun pl => pl.incoming.contains p.packet_type)
  (targets, if targets.isEmpty then .droppedNoHandler else .delivered)

/-- The remote input plugin's registration, from
RemoteInputPlugin::incoming_capabilities in remoteinput.rs. -/
def remoteInputEntry : PluginEntry :=
  ⟨"remoteinput", [PACKET_TYPE_MOUSEPAD_REQUEST]⟩

/-- The system volume plugin's registration, from
SystemVolumePlugin::incoming_capabilities in systemvolume.rs: the cconnect
type plus the historical kdeconnect-prefixed duplicate. -/
def systemVolumeEntry : PluginEntry :=
  ⟨"systemvolume", [PACKET_TYPE_SYSTEMVOLUME_REQUEST, "kdeconnect.systemvolume.request"]⟩

/-! ## The per-device pairing and connection state machine

Modelled from the spec, sections 3, 4.4 and 4.5: pairing.rs, device.rs and
connection.rs are not among the available sources.  The trust store entry for
the one device under consideration is carried inside the state. -/

/-- Modelled from the spec: the fixed pairing timeout duration constant
(section 4.4; its numeric value is irrelevant to the claims). -/
def PAIRING_TIMEOUT : Nat := 30

/-- Connection states of section 3. -/
inductive ConnState where
  | disconnected
  | connecting
  | connectedUnpaired
  | pairing
  | paired
deriving DecidableEq

/-- Pairing failure outcomes of sections 4.4 and 7. -/
inductive PairingFailure where
  | pairingTimedOut
  | pairingRejected
  | untrustedCertificate
deriving DecidableEq

/-- Per-device state: connection state, the certificate fingerprint the peer
presented on the current connection, the trust-store entry for the device id,
the pairing deadline, and the last failure surfaced. -/
structure DeviceState where
  conn : ConnState
  presentedFp : Option String
  trust : Option String
  deadline : Option Nat
  failure : Option PairingFailure
deriving DecidableEq

/-- Events driving the per-device machine. -/
inductive PairingMsg where
  | connect
  | handshake (fp : String)
  | pairRequest (now : Nat)
  | pairResponse (accept : Bool)
  | timeoutFire (now : Nat)
  | unpair
  | disconnect

/-- Modelled from the spec: one transition of the per-device machine
(sections 3, 4.4, 4.5).  The TLS handshake records the presented fingerprint
and refuses a mismatch against the trust store (UntrustedCertificate); a
pair-accept reaches Paired only when the presented fingerprint matches the
trust store or is newly recorded into it; a reject or timeout reverts to
unpaired-connected; unpair clears the trust entry. -/
def pairingStep (s : DeviceState) (e : PairingMsg) : DeviceState :=
  match e with
  | .connect =>
      if s.conn = .disconnected then { s with conn := .connecting, failure := none } else s
  | .handshake fp =>
      if s.conn = .connecting then
        match s.trust with
        | some f =>
            if f = fp then { s with conn := .connectedUnpaired, presentedFp := some fp }
            else
              { s with
                conn := .disconnected, presentedFp := none,
                failure := some .untrustedCertificate }
        | none => { s with conn := .connectedUnpaired, presentedFp := some fp }
      else s
  | .pairRequest now =>
      if s.conn = .connectedUnpaired then
        { s with conn := .pairing, deadline := some (now + PAIRING_TIMEOUT) }
      else s
  | .pairResponse accept =>
      if s.conn = .pairing then
        if accept then
          match s.presentedFp with
          | some fp =>
              match s.trust with
              | none => { s with conn := .paired, trust := some fp, deadline := none }
              | some f =>
                  if f = fp then { s with conn := .paired, deadline := none }
                  else
                    { s with
                      conn := .disconnected, presentedFp := none,
                      deadline := none, failure := some .untrustedCertificate }
          | none => s
        else
          { s with
            conn := .connectedUnpaired, deadline := none,
            failure := some .pairingRejected }
      else s
  | .timeoutFire now =>
      match s.deadline with
      | some d =>
          if s.conn = .pairing ∧ d ≤ now then
            { s with
              conn := .connectedUnpaired, deadline := none,
              failure := some .pairingTimedOut }
          else s
      | none => s
  | .unpair =>
      { s with
        trust := none, deadline := none,
        conn := if s.conn = .paired ∨ s.conn = .pairing then .connectedUnpaired else s.conn }
  | .disconnect => { s with conn := .disconnected, presentedFp := none, deadline := none }

/-- States reachable from a fresh device entry (any persisted trust-store
entry, no live connection). -/
inductive PairingReachable : DeviceState → Prop where
  | init (t : Option String) :
      PairingReachable ⟨.disconnected, none, t, none, none⟩
  | step (s : DeviceState) (e : PairingMsg) :
      PairingReachable s → PairingReachable (pairingStep s e)

/-! ## MPRIS manager (kdeconnect-daemon/src/mpris_manager.rs) -/

def MPRIS_BUS_PREFIX : String := "org.mpris.MediaPlayer2."

/-- MprisManager::player_bus_name. -/
def player_bus_name (player : String) : String := MPRIS_BUS_PREFIX ++ player

/-- The allow-list of MprisManager::call_player_method. -/
def VALID_METHODS : List String := ["Play", "Pause", "PlayPause", "Stop", "Next", "Previous"]

/-- MprisManager::call_player_method: a method outside the allow-list is
rejected before any bus interaction; an allowed method is invoked on the
player's bus name.  The second component records the bus calls performed. -/
def call_player_method (player method : String) :
    Except String Unit × List (String × String) :=
  if VALID_METHODS.contains method then
    (.ok (), [(player_bus_name player, method)])
  else
    (.error ("Unknown method: " ++ method), [])

/-! ## Well-typedness of request bodies (support for the forward-compatibility
claim): a recognized field is well typed when absent, null, or of the expected
type; the value functions below give the decoded field values. -/

def okOptString : Option Json → Bool
  | none => true
  | some .null => true
  | some (.str _) => true
  | some _ => false

def okOptBool : Option Json → Bool
  | none => true
  | some .null => true
  | some (.bool _) => true
  | some _ => false

def okOptI32 : Option Json → Bool
  | none => true
  | some .null => true
  | some (.num n) => if -2147483648 ≤ n ∧ n ≤ 2147483647 then true else false
  | some _ => false

def okOptNum : Option Json → Bool
  | none => true
  | some .null => true
  | some (.num _) => true
  | some _ => false

def okReqSinks : Option Json → Bool
  | none => true
  | some (.bool _) => true
  | some _ => false

def optStringVal : Option Json → Option String
  | some (.str s) => some s
  | _ => none

def optBoolVal : Option Json → Option Bool
  | some (.bool b) => some b
  | _ => none

def optIntVal : Option Json → Option Int
  | some (.num n) => some n
  | _ => none

def reqSinksVal : Option Json → Bool
  | some (.bool b) => b
  | _ => false

/-- All recognized remote input fields present are well typed. -/
def riWellTyped (fields : List (String × Json)) : Bool :=
  okOptString (jGet fields "key") && okOptI32 (jGet fields "specialKey") &&
  okOptBool (jGet fields "alt") && okOptBool (jGet fields "ctrl") &&
  okOptBool (jGet fields "shift") && okOptBool (jGet fields "super") &&
  okOptBool (jGet fields "singleclick") && okOptBool (jGet fields "doubleclick") &&
  okOptBool (jGet fields "middleclick") && okOptBool (jGet fields "rightclick") &&
  okOptBool (jGet fields "singlehold") && okOptBool (jGet fields "singlerelease") &&
  okOptNum (jGet fields "dx") && okOptNum (jGet fields "dy") &&
  okOptBool (jGet fields "scroll") && okOptBool (jGet fields "sendAck")

/-- All recognized system volume fields present are well typed. -/
def svWellTyped (fields : List (String × Json)) : Bool :=
  okOptString (jGet fields "name") && okOptI32 (jGet fields "volume") &&
  okOptBool (jGet fields "muted") && okOptBool (jGet fields "enabled") &&
  okReqSinks (jGet fields "requestSinks")

/-- The field names the remote input request recognizes. -/
def riKeys : List String :=
  ["key", "specialKey", "alt", "ctrl", "shift", "super", "singleclick", "doubleclick",
   "middleclick", "rightclick", "singlehold", "singlerelease", "dx", "dy", "scroll", "sendAck"]

/-- The field names the system volume request recognizes. -/
def svKeys : List String := ["name", "volume", "muted", "enabled", "requestSinks"]

theorem optStringField_ok (fields : List (String × Json)) (k : String)
    (h : okOptString (jGet fields k) = true) :
    optStringField fields k = .ok (optStringVal (jGet fields k)) := by
  cases hget : jGet fields k with
  | none => simp [optStringField, optStringVal, hget]
  | some j => cases j <;> simp_all [optStringField, optStringVal, okOptString, hget]

theorem optBoolField_ok (fields : List (String × Json)) (k : String)
    (h : okOptBool (jGet fields k) = true) :
    optBoolField fields k = .ok (optBoolVal (jGet fields k)) := by
  cases hget : jGet fields k with
  | none => simp [optBoolField, optBoolVal, hget]
  | some j => cases j <;> simp_all [optBoolField, optBoolVal, okOptBool, hget]

theorem optI32Field_ok (fields : List (String × Json)) (k : String)
    (h : okOptI32 (jGet fields k) = true) :
    optI32Field fields k = .ok (optIntVal (jGet fields k)) := by
  cases hget : jGet fields k with
  | none => simp [optI32Field, optIntVal, hget]
  | some j => cases j <;> simp_all [optI32Field, optIntVal, okOptI32, hget]

theorem optNumField_ok (fields : List (String × Json)) (k : String)
    (h : okOptNum (jGet fields k) = true) :
    optNumField fields k = .ok (optIntVal (jGet fields k)) := by
  cases hget : jGet fields k with
  | none => simp [optNumField, optIntVal, hget]
  | some j => cases j <;> simp_all [optNumField, optIntVal, okOptNum, hget]

theorem reqSinksField_ok (fields : List (String × Json))
    (h : okReqSinks (jGet fields "requestSinks") = true) :
    reqSinksField fields = .ok (reqSinksVal (jGet fields "requestSinks")) := by
  cases hget : jGet fields "requestSinks" with
  | none => simp [reqSinksField, reqSinksVal, hget]
  | some j => cases j <;> simp_all [reqSinksField, reqSinksVal, okReqSinks, hget]

theorem jGet_cons_ne (k0 : String) (v0 : Json) (fields : List (String × Json))
    (k : String) (h : k0 ≠ k) : jGet ((k0, v0) :: fields) k = jGet fields k := by
  simp [jGet, List.find?, beq_eq_false_iff_ne.mpr h]

theorem optStringField_congr (f1 f2 : List (String × Json)) (k : String)
    (h : jGet f1 k = jGet f2 k) : optStringField f1 k = optStringField f2 k := by
  unfold optStringField; rw [h]

theorem optBoolField_congr (f1 f2 : List (String × Json)) (k : String)
    (h : jGet f1 k = jGet f2 k) : optBoolField f1 k = optBoolField f2 k := by
  unfold optBoolField; rw [h]

theorem optI32Field_congr (f1 f2 : List (String × Json)) (k : String)
    (h : jGet f1 k = jGet f2 k) : optI32Field f1 k = optI32Field f2 k := by
  unfold optI32Field; rw [h]

theorem optNumField_congr (f1 f2 : List (String × Json)) (k : String)
    (h : jGet f1 k = jGet f2 k) : optNumField f1 k = optNumField f2 k := by
  unfold optNumField; rw [h]

theorem reqSinksField_congr (f1 f2 : List (String × Json))
    (h : jGet f1 "requestSinks" = jGet f2 "requestSinks") :
    reqSinksField f1 = reqSinksField f2 := by
  unfold reqSinksField; rw [h]

/-- A well-typed remote input body parses to exactly the decoded field
values (in particular every absent optional field decodes to None). -/
theorem remoteInputRequestFromJson_ok (fields : List (String × Json))
    (h : riWellTyped fields = true) :
    remoteInputRequestFromJson (.obj fields) = .ok
      ⟨optStringVal (jGet fields "key"), optIntVal (jGet fields "specialKey"),
       optBoolVal (jGet fields "alt"), optBoolVal (jGet fields "ctrl"),
       optBoolVal (jGet fields "shift"), optBoolVal (jGet fields "super"),
       optBoolVal (jGet fields "singleclick"), optBoolVal (jGet fields "doubleclick"),
       optBoolVal (jGet fields "middleclick"), optBoolVal (jGet fields "rightclick"),
       optBoolVal (jGet fields "singlehold"), optBoolVal (jGet fields "singlerelease"),
       optIntVal (jGet fields "dx"), optIntVal (jGet fields "dy"),
       optBoolVal (jGet fields "scroll"), optBoolVal (jGet fields "sendAck")⟩ := by
  simp only [riWellTyped, Bool.and_eq_true] at h
  obtain ⟨⟨⟨⟨⟨⟨⟨⟨⟨⟨⟨⟨⟨⟨⟨h1, h2⟩, h3⟩, h4⟩, h5⟩, h6⟩, h7⟩, h8⟩, h9⟩, h10⟩, h11⟩,
    h12⟩, h13⟩, h14⟩, h15⟩, h16⟩ := h
  simp only [remoteInputRequestFromJson, optStringField_ok _ _ h1, optI32Field_ok _ _ h2,
    optBoolField_ok _ _ h3, optBoolField_ok _ _ h4, optBoolField_ok _ _ h5,
    optBoolField_ok _ _ h6, optBoolField_ok _ _ h7, optBoolField_ok _ _ h8,
    optBoolField_ok _ _ h9, optBoolField_ok _ _ h10, optBoolField_ok _ _ h11,
    optBoolField_ok _ _ h12, optNumField_ok _ _ h13, optNumField_ok _ _ h14,
    optBoolField_ok _ _ h15, optBoolField_ok _ _ h16]
  rfl

/-- A well-typed system volume body parses to exactly the decoded field
values; an absent requestSinks decodes to false. -/
theorem systemVolumeRequestFromJson_ok (fields : List (String × Json))
    (h : svWellTyped fields = true) :
    systemVolumeRequestFromJson (.obj fields) = .ok
      ⟨optStringVal (jGet fields "name"), optIntVal (jGet fields "volume"),
       optBoolVal (jGet fields "muted"), optBoolVal (jGet fields "enabled"),
       reqSinksVal (jGet fields "requestSinks")⟩ := by
  simp only [svWellTyped, Bool.and_eq_true] at h
  obtain ⟨⟨⟨⟨h1, h2⟩, h3⟩, h4⟩, h5⟩ := h
  simp only [systemVolumeRequestFromJson, optStringField_ok _ _ h1, optI32Field_ok _ _ h2,
    optBoolField_ok _ _ h3, optBoolField_ok _ _ h4, reqSinksField_ok _ h5]
  rfl

/-- An unrecognized leading field does not change how a remote input body
parses. -/
theorem remoteInputRequestFromJson_ignores (k0 : String) (v0 : Json)
    (fields : List (String × Json)) (h : k0 ∉ riKeys) :
    remoteInputRequestFromJson (.obj ((k0, v0) :: fields))
      = remoteInputRequestFromJson (.obj fields) := by
  simp only [riKeys, List.mem_cons, List.not_mem_nil, or_false, not_or] at h
  obtain ⟨n1, n2, n3, n4, n5, n6, n7, n8, n9, n10, n11, n12, n13, n14, n15, n16⟩ := h
  simp only [remoteInputRequestFromJson,
    optStringField_congr _ fields _ (jGet_cons_ne _ _ _ _ n1),
    optI32Field_congr _ fields _ (jGet_cons_ne _ _ _ _ n2),
    optBoolField_congr _ fields "alt" (jGet_cons_ne _ _ _ _ n3),
    optBoolField_congr _ fields "ctrl" (jGet_cons_ne _ _ _ _ n4),
    optBoolField_congr _ fields "shift" (jGet_cons_ne _ _ _ _ n5),
    optBoolField_congr _ fields "super" (jGet_cons_ne _ _ _ _ n6),
    optBoolField_congr _ fields "singleclick" (jGet_cons_ne _ _ _ _ n7),
    optBoolField_congr _ fields "doubleclick" (jGet_cons_ne _ _ _ _ n8),
    optBoolField_congr _ fields "middleclick" (jGet_cons_ne _ _ _ _ n9),
    optBoolField_congr _ fields "rightclick" (jGet_cons_ne _ _ _ _ n10),
    optBoolField_congr _ fields "singlehold" (jGet_cons_ne _ _ _ _ n11),
    optBoolField_congr _ fields "singlerelease" (jGet_cons_ne _ _ _ _ n12),
    optNumField_congr _ fields "dx" (jGet_cons_ne _ _ _ _ n13),
    optNumField_congr _ fields "dy" (jGet_cons_ne _ _ _ _ n14),
    optBoolField_congr _ fields "scroll" (jGet_cons_ne _ _ _ _ n15),
    optBoolField_congr _ fields "sendAck" (jGet_cons_ne _ _ _ _ n16)]

/-- An unrecognized leading field does not change how a system volume body
parses. -/
theorem systemVolumeRequestFromJson_ignores (k0 : String) (v0 : Json)
    (fields : List (String × Json)) (h : k0 ∉ svKeys) :
    systemVolumeRequestFromJson (.obj ((k0, v0) :: fields))
      = systemVolumeRequestFromJson (.obj fields) := by
  simp only [svKeys, List.mem_cons, List.not_mem_nil, or_false, not_or] at h
  obtain ⟨n1, n2, n3, n4, n5⟩ := h
  simp only [systemVolumeRequestFromJson,
    optStringField_congr _ fields _ (jGet_cons_ne _ _ _ _ n1),
    optI32Field_congr _ fields _ (jGet_cons_ne _ _ _ _ n2),
    optBoolField_congr _ fields "muted" (jGet_cons_ne _ _ _ _ n3),
    optBoolField_congr _ fields "enabled" (jGet_cons_ne _ _ _ _ n4),
    reqSinksField_congr _ fields (jGet_cons_ne _ _ _ _ n5)]

/-- The pairing invariant: every reachable Paired state carries a presented
fingerprint equal to the trust-store entry. -/
theorem paired_fingerprint_inv (s : DeviceState) (h : PairingReachable s) :
    s.conn = .paired → ∃ fp, s.presentedFp = some fp ∧ s.trust = some fp := by
  induction h with
  | init t => intro hc; exact absurd hc (by simp)
  | step s e hs ih =>
      intro hc
      cases e with
      | connect =>
          by_cases hd : s.conn = .disconnected
          · simp [pairingStep, hd] at hc
          · simp only [pairingStep, if_neg hd] at hc ⊢
            exact ih hc
      | handshake fp =>
          by_cases hd : s.conn = .connecting
          · simp only [pairingStep, if_pos hd] at hc ⊢
            cases htr : s.trust with
            | some f =>
                rw [htr] at hc
                by_cases hf : f = fp
                · simp [hf] at hc
                · simp [hf] at hc
            | none => rw [htr] at hc; simp at hc
          · simp only [pairingStep, if_neg hd] at hc ⊢
            exact ih hc
      | pairRequest now =>
          by_cases hd : s.conn = .connectedUnpaired
          · simp [pairingStep, hd] at hc
          · simp only [pairingStep, if_neg hd] at hc ⊢
            exact ih hc
      | pairResponse accept =>
          by_cases hd : s.conn = .pairing
          · cases accept with
            | true =>
                cases hp : s.presentedFp with
                | some fp =>
                    cases htr : s.trust with
                    | none =>
                        simp only [pairingStep, hd, hp, htr] at hc ⊢
                        exact ⟨fp, by simp, by simp⟩
                    | some f =>
                        by_cases hf : f = fp
                        · simp only [pairingStep, hd, hp, htr, hf] at hc ⊢
                          refine ⟨fp, by simp, ?_⟩
                          simp [htr, hf]
                        · simp [pairingStep, hd, hp, htr, hf] at hc
                | none =>
                    simp only [pairingStep, hd, hp] at hc ⊢
                    exact ih hc
            | false => simp [pairingStep, hd] at hc
          · simp only [pairingStep, if_neg hd] at hc ⊢
            exact ih hc
      | timeoutFire now =>
          cases hdl : s.deadline with
          | some d =>
              simp only [pairingStep, hdl] at hc ⊢
              by_cases hcond : s.conn = .pairing ∧ d ≤ now
              · simp [hcond] at hc
              · simp only [if_neg hcond] at hc ⊢
                exact ih hc
          | none =>
              simp only [pairingStep, hdl] at hc ⊢
              exact ih hc
      | unpair =>
          simp only [pairingStep] at hc
          by_cases hd : s.conn = .paired ∨ s.conn = .pairing
          · simp [hd] at hc
          · simp only [if_neg hd] at hc
            exact absurd hc (by push_neg at hd; exact hd.1)
      | disconnect => simp [pairingStep] at hc

/-! ## Claim theorems -/

/-- C1: in every reachable state of the per-device connection machine, the
device is Paired only if the fingerprint the peer presented equals the
trust-store entry (the pairing flow records it on first pairing); a
connection presenting a mismatched fingerprint for a known device id is
never accepted as paired. -/
theorem paired_only_with_trusted_fingerprint (s : DeviceState) (fp entry : String)
    (h : PairingReachable s) :
    (s.conn = .paired → ∃ f, s.presentedFp = some f ∧ s.trust = some f) ∧
    (s.presentedFp = some fp → s.trust = some entry → entry ≠ fp →
      s.conn ≠ .paired) := by
  refine ⟨paired_fingerprint_inv s h, ?_⟩
  intro hp ht hne hc
  obtain ⟨f, hf1, hf2⟩ := paired_fingerprint_inv s h hc
  rw [hp] at hf1
  rw [ht] at hf2
  have h1 : fp = f := Option.some.inj hf1
  have h2 : entry = f := Option.some.inj hf2
  exact hne (h2.trans h1.symm)

theorem paired_only_with_trusted_fingerprint_witness :
    ((pairingStep (pairingStep (pairingStep (pairingStep
          ⟨.disconnected, none, some "AA", none, none⟩
          .connect) (.handshake "AA")) (.pairRequest 0)) (.pairResponse true)).conn
        = ConnState.paired
      → ∃ f, (pairingStep (pairingStep (pairingStep (pairingStep
          ⟨.disconnected, none, some "AA", none, none⟩
          .connect) (.handshake "AA")) (.pairRequest 0)) (.pairResponse true)).presentedFp
          = some f
        ∧ (pairingStep (pairingStep (pairingStep (pairingStep
          ⟨.disconnected, none, some "AA", none, none⟩
          .connect) (.handshake "AA")) (.pairRequest 0)) (.pairResponse true)).trust
          = some f) ∧
    ((pairingStep (pairingStep (pairingStep (pairingStep
          ⟨.disconnected, none, some "AA", none, none⟩
          .connect) (.handshake "AA")) (.pairRequest 0)) (.pairResponse true)).presentedFp
        = some "CC"
      → (pairingStep (pairingStep (pairingStep (pairingStep
          ⟨.disconnected, none, some "AA", none, none⟩
          .connect) (.handshake "AA")) (.pairRequest 0)) (.pairResponse true)).trust
          = some "AA"
      → "AA" ≠ "CC"
      → (pairingStep (pairingStep (pairingStep (pairingStep
          ⟨.disconnected, none, some "AA", none, none⟩
          .connect) (.handshake "AA")) (.pairRequest 0)) (.pairResponse true)).conn
          ≠ ConnState.paired) :=
  paired_only_with_trusted_fingerprint _ "CC" "AA"
    (PairingReachable.step _ _ (PairingReachable.step _ _ (PairingReachable.step _ _
      (PairingReachable.step _ _ (PairingReachable.init (some "AA"))))))

/-- C2: for every valid packet, decoding the bytes produced by encoding the
packet yields the packet again, consuming exactly its frame. -/
theorem packet_decode_encode_roundtrip (p : Packet) (extra : List Char)
    (hv : p.valid = true) :
    decodePacket (encodePacket p ++ extra) = some (p, extra) :=
  decode_encode p extra hv

theorem packet_decode_encode_roundtrip_witness :
    decodePacket (encodePacket ⟨"kdeconnect.identity", 42,
        .obj [("deviceId", .str "dev-A"), ("caps", .arr [.str "x.ping", .num (-3)]),
              ("tcpPort", .num 1716)]⟩ ++ [])
      = some (⟨"kdeconnect.identity", 42,
        .obj [("deviceId", .str "dev-A"), ("caps", .arr [.str "x.ping", .num (-3)]),
              ("tcpPort", .num 1716)]⟩, []) :=
  packet_decode_encode_roundtrip _ [] (by rfl)

/-- C3: the crate-level constant PROTOCOL_VERSION is 8 while the crate's own
test test_protocol_version asserts it equals 7, so the declared constant and
the tested value are inconsistent. -/
theorem protocol_version_test_mismatch :
    PROTOCOL_VERSION = 8 ∧ testProtocolVersionExpected = 7 ∧
    PROTOCOL_VERSION ≠ testProtocolVersionExpected := by decide

/-- C4: plugin handlers match packet type strings exactly and
case-sensitively: RemoteInputPlugin::handle_packet processes a packet if and
only if its type is kdeconnect.mousepad.request (anything else is an Ok
no-op), and SystemVolumePlugin::handle_packet processes a packet if and only
if its type is cconnect.systemvolume.request or the historical
kdeconnect.systemvolume.request. -/
theorem plugin_packet_type_exact_match :
    (∀ p : Packet, p.packet_type = PACKET_TYPE_MOUSEPAD_REQUEST →
        RemoteInputPlugin.handle_packet p = RemoteInputPlugin.handle_request p) ∧
    (∀ p : Packet, p.packet_type ≠ PACKET_TYPE_MOUSEPAD_REQUEST →
        RemoteInputPlugin.handle_packet p = .ok ()) ∧
    (∀ (env : AudioEnv) (cache : List (String × Nat)) (p : Packet),
        (p.packet_type = PACKET_TYPE_SYSTEMVOLUME_REQUEST ∨
          p.packet_type = "kdeconnect.systemvolume.request") →
        SystemVolumePlugin.handle_packet env cache p
          = SystemVolumePlugin.handle_volume_request env cache p) ∧
    (∀ (env : AudioEnv) (cache : List (String × Nat)) (p : Packet),
        p.packet_type ≠ PACKET_TYPE_SYSTEMVOLUME_REQUEST →
        p.packet_type ≠ "kdeconnect.systemvolume.request" →
        SystemVolumePlugin.handle_packet env cache p = .ok []) := by
  refine ⟨?_, ?_, ?_, ?_⟩
  · intro p h
    simp [RemoteInputPlugin.handle_packet, h]
  · intro p h
    simp [RemoteInputPlugin.handle_packet, h]
  · intro env cache p h
    rcases h with h | h <;> simp [SystemVolumePlugin.handle_packet, Packet.is_type, h]
  · intro env cache p h1 h2
    simp [SystemVolumePlugin.handle_packet, Packet.is_type,
      beq_eq_false_iff_ne.mpr h1, beq_eq_false_iff_ne.mpr h2]

theorem plugin_packet_type_exact_match_witness :
    RemoteInputPlugin.handle_packet ⟨"KDECONNECT.MOUSEPAD.REQUEST", 0, .str "junk"⟩
      = .ok () ∧
    SystemVolumePlugin.handle_packet ⟨fun _ => none, none⟩ []
        ⟨"kdeconnect.systemvolume.request", 0, .null⟩
      = SystemVolumePlugin.handle_volume_request ⟨fun _ => none, none⟩ []
        ⟨"kdeconnect.systemvolume.request", 0, .null⟩ :=
  ⟨plugin_packet_type_exact_match.2.1 _ (by decide),
   plugin_packet_type_exact_match.2.2.1 _ _ _ (Or.inr rfl)⟩

/-- C5: a packet of the handled type whose body fails to deserialize makes
the handler return an InvalidPacket error value (never a panic or abort: the
handlers are total functions into Except). -/
theorem malformed_body_yields_invalid_packet :
    (∀ (p : Packet) (e : String), remoteInputRequestFromJson p.body = .error e →
        RemoteInputPlugin.handle_request p
          = .error (.InvalidPacket ("Failed to parse request: " ++ e))) ∧
    (∀ (env : AudioEnv) (cache : List (String × Nat)) (p : Packet) (e : String),
        systemVolumeRequestFromJson p.body = .error e →
        SystemVolumePlugin.handle_volume_request env cache p
          = .error (.InvalidPacket ("Failed to parse volume request: " ++ e))) := by
  constructor
  · intro p e h
    simp [RemoteInputPlugin.handle_request, h]
  · intro env cache p e h
    simp [SystemVolumePlugin.handle_volume_request, h]

theorem malformed_body_yields_invalid_packet_witness :
    RemoteInputPlugin.handle_request ⟨"kdeconnect.mousepad.request", 0, .str "oops"⟩
      = .error (.InvalidPacket ("Failed to parse request: " ++ "invalid type: expected a map")) ∧
    SystemVolumePlugin.handle_volume_request ⟨fun _ => none, none⟩ []
        ⟨"cconnect.systemvolume.request", 0, .num 3⟩
      = .error (.InvalidPacket
          ("Failed to parse volume request: " ++ "invalid type: expected a map")) :=
  ⟨malformed_body_yields_invalid_packet.1 _ _ rfl,
   malformed_body_yields_invalid_packet.2 _ _ _ _ rfl⟩

/-- C6: deserialization of the request bodies never rejects unknown fields
and never requires optional fields: a body whose recognized fields are well
typed parses, each absent optional field becomes None (the value functions
give none on an absent key), an unrecognized field leaves the result
unchanged, and an absent requestSinks defaults to false. -/
theorem request_bodies_forward_compatible :
    (∀ fields, riWellTyped fields = true →
      remoteInputRequestFromJson (.obj fields) = .ok
        ⟨optStringVal (jGet fields "key"), optIntVal (jGet fields "specialKey"),
         optBoolVal (jGet fields "alt"), optBoolVal (jGet fields "ctrl"),
         optBoolVal (jGet fields "shift"), optBoolVal (jGet fields "super"),
         optBoolVal (jGet fields "singleclick"), optBoolVal (jGet fields "doubleclick"),
         optBoolVal (jGet fields "middleclick"), optBoolVal (jGet fields "rightclick"),
         optBoolVal (jGet fields "singlehold"), optBoolVal (jGet fields "singlerelease"),
         optIntVal (jGet fields "dx"), optIntVal (jGet fields "dy"),
         optBoolVal (jGet fields "scroll"), optBoolVal (jGet fields "sendAck")⟩) ∧
    (∀ fields, svWellTyped fields = true →
      systemVolumeRequestFromJson (.obj fields) = .ok
        ⟨optStringVal (jGet fields "name"), optIntVal (jGet fields "volume"),
         optBoolVal (jGet fields "muted"), optBoolVal (jGet fields "enabled"),
         reqSinksVal (jGet fields "requestSinks")⟩) ∧
    (∀ (k0 : String) (v0 : Json) fields, k0 ∉ riKeys →
      remoteInputRequestFromJson (.obj ((k0, v0) :: fields))
        = remoteInputRequestFromJson (.obj fields)) ∧
    (∀ (k0 : String) (v0 : Json) fields, k0 ∉ svKeys →
      systemVolumeRequestFromJson (.obj ((k0, v0) :: fields))
        = systemVolumeRequestFromJson (.obj fields)) :=
  ⟨remoteInputRequestFromJson_ok, systemVolumeRequestFromJson_ok,
   remoteInputRequestFromJson_ignores, systemVolumeRequestFromJson_ignores⟩

theorem request_bodies_forward_compatible_witness :
    remoteInputRequestFromJson (.obj [("key", .str "a"), ("mystery", .arr [.null])])
      = .ok ⟨some "a", none, none, none, none, none, none, none, none, none, none, none,
          none, none, none, none⟩ ∧
    systemVolumeRequestFromJson (.obj [("volume", .num 40)])
      = .ok ⟨none, some 40, none, none, false⟩ ∧
    remoteInputRequestFromJson
        (.obj (("zzz", .num 1) :: [("key", .str "a"), ("mystery", .arr [.null])]))
      = remoteInputRequestFromJson (.obj [("key", .str "a"), ("mystery", .arr [.null])]) :=
  ⟨request_bodies_forward_compatible.1 _ (by rfl),
   request_bodies_forward_compatible.2.1 _ (by rfl),
   request_bodies_forward_compatible.2.2.1 "zzz" _ _ (by decide)⟩

/-- C7: a pairing that is still outstanding when the deadline expires fails
with PairingTimedOut and the device transitions back to unpaired-connected,
not to Paired. -/
theorem pairing_timeout_reverts_to_unpaired (s : DeviceState) (now d : Nat)
    (hconn : s.conn = .pairing) (hdl : s.deadline = some d) (hexp : d ≤ now) :
    (pairingStep s (.timeoutFire now)).conn = .connectedUnpaired ∧
    (pairingStep s (.timeoutFire now)).failure = some .pairingTimedOut ∧
    (pairingStep s (.timeoutFire now)).conn ≠ .paired := by
  simp [pairingStep, hdl, hconn, hexp]

theorem pairing_timeout_reverts_to_unpaired_witness :
    (pairingStep ⟨.pairing, some "AA", some "AA", some 30, none⟩
        (.timeoutFire 31)).conn = .connectedUnpaired ∧
    (pairingStep ⟨.pairing, some "AA", some "AA", some 30, none⟩
        (.timeoutFire 31)).failure = some .pairingTimedOut ∧
    (pairingStep ⟨.pairing, some "AA", some "AA", some 30, none⟩
        (.timeoutFire 31)).conn ≠ .paired :=
  pairing_timeout_reverts_to_unpaired _ 31 30 rfl rfl (by omega)

/-- C8: dispatch is a fan-out over declared incoming capabilities: a packet
of type T reaches exactly the registered plugins whose capabilities contain
T, and a packet no plugin claims is dropped without an error; the two
embedded plugins declare exactly the capabilities of the sources, so the
historical kdeconnect.systemvolume.request reaches only the system volume
plugin. -/
theorem dispatch_fanout_by_capability :
    (∀ (plugins : List PluginEntry) (p : Packet) (pl : PluginEntry),
        pl ∈ (dispatchPacket plugins p).1 ↔ pl ∈ plugins ∧ p.packet_type ∈ pl.incoming) ∧
    (∀ (plugins : List PluginEntry) (p : Packet),
        (dispatchPacket plugins p).1 = [] →
        (dispatchPacket plugins p).2 = .droppedNoHandler) ∧
    (dispatchPacket [remoteInputEntry, systemVolumeEntry]
        ⟨"kdeconnect.systemvolume.request", 0, .null⟩).1 = [systemVolumeEntry] := by
  refine ⟨?_, ?_, by decide⟩
  · intro plugins p pl
    simp [dispatchPacket, List.mem_filter, List.elem_iff]
  · intro plugins p h
    simp only [dispatchPacket] at h ⊢
    rw [h]
    rfl

theorem dispatch_fanout_by_capability_witness :
    (systemVolumeEntry ∈ (dispatchPacket [remoteInputEntry, systemVolumeEntry]
        ⟨"kdeconnect.systemvolume.request", 0, .null⟩).1
      ↔ systemVolumeEntry ∈ [remoteInputEntry, systemVolumeEntry]
        ∧ "kdeconnect.systemvolume.request" ∈ systemVolumeEntry.incoming) ∧
    (dispatchPacket [remoteInputEntry] ⟨"x.ping", 0, .null⟩).2
      = DispatchOutcome.droppedNoHandler :=
  ⟨dispatch_fanout_by_capability.1 _ _ _,
   dispatch_fanout_by_capability.2.1 _ _ (by decide)⟩

/-- C9: a volume request whose body sets requestSinks answers with the sink
list and returns Ok at once, applying no volume or mute change even when the
body also carries name, volume, or muted fields. -/
theorem request_sinks_short_circuits (env : AudioEnv) (cache : List (String × Nat))
    (p : Packet) (r : SystemVolumeRequest)
    (hparse : systemVolumeRequestFromJson p.body = .ok r)
    (hsinks : r.request_sinks = true) :
    SystemVolumePlugin.handle_volume_request env cache p = .ok [.sentSinkList] := by
  simp [SystemVolumePlugin.handle_volume_request, hparse, hsinks]

theorem request_sinks_short_circuits_witness :
    SystemVolumePlugin.handle_volume_request ⟨fun _ => none, none⟩ []
        ⟨"cconnect.systemvolume.request", 0,
          .obj [("requestSinks", .bool true), ("name", .str "50"),
                ("volume", .num 10), ("muted", .bool true)]⟩
      = .ok [.sentSinkList] :=
  request_sinks_short_circuits _ [] _ ⟨some "50", some 10, some true, none, true⟩ rfl rfl

/-- C10: call_player_method invokes a method on a player only for the six
allow-listed strings; every other method string yields an error and performs
no bus call at all. -/
theorem mpris_method_allowlist (player method : String) :
    ((method = "Play" ∨ method = "Pause" ∨ method = "PlayPause" ∨ method = "Stop" ∨
      method = "Next" ∨ method = "Previous") →
      call_player_method player method
        = (.ok (), [(player_bus_name player, method)])) ∧
    (¬(method = "Play" ∨ method = "Pause" ∨ method = "PlayPause" ∨ method = "Stop" ∨
      method = "Next" ∨ method = "Previous") →
      call_player_method player method
        = (.error ("Unknown method: " ++ method), [])) := by
  constructor
  · intro h
    have hm : method ∈ VALID_METHODS := by
      rcases h with h | h | h | h | h | h <;> (subst h; simp [VALID_METHODS])
    unfold call_player_method
    rw [if_pos (List.elem_iff.mpr hm)]
  · intro h
    have hm : method ∉ VALID_METHODS := by
      intro hmem
      apply h
      simp only [VALID_METHODS, List.mem_cons, List.not_mem_nil, or_false] at hmem
      exact hmem
    unfold call_player_method
    rw [if_neg (fun hcc => hm (List.elem_iff.mp hcc))]

theorem mpris_method_allowlist_witness :
    call_player_method "spotify" "Play"
      = (.ok (), [(player_bus_name "spotify", "Play")]) ∧
    call_player_method "spotify" "Quit"
      = (.error ("Unknown method: " ++ "Quit"), []) :=
  ⟨(mpris_method_allowlist "spotify" "Play").1 (Or.inl rfl),
   (mpris_method_allowlist "spotify" "Quit").2 (by decide)⟩

end KdeConnect
